import Mathlib

/-!
Verification of the Lambda error-monitor / auto-fixer repository.

The definitions below are a shallow embedding of the JavaScript sources:
`error-monitor.js` (classifier and simulated knowledge analysis),
`knowledge-integration.js` (auto-fix gate), `lambda-auto-fixer.js`
(attempt state machine: snapshot / apply / publish / alias / verify /
rollback) and `lambda-error-orchestrator.js` (cooldown bookkeeping and
batch scheduling).  Machine integers are modelled as `Nat`/`Int`,
fallible external calls as `Except`, and the nondeterministic success or
failure of each external call as an oracle `Nat → Bool` indexed by the
sequential position of the call.
-/

namespace ErrorMonitor

/-- The closed category set of `extractErrorPatterns` in `error-monitor.js`
(object keys `timeout, memory, permission, import, syntax, runtime, other`,
in declaration order). -/
inductive ErrorCategory where
  | timeout
  | memory
  | permission
  | importDep
  | syntaxCat
  | runtime
  | other
deriving DecidableEq, Repr

/-- Declaration index of a category in the `patterns` object of
`extractErrorPatterns` (the order `Object.entries` enumerates them). -/
def catIdx : ErrorCategory → Nat
  | .timeout => 0
  | .memory => 1
  | .permission => 2
  | .importDep => 3
  | .syntaxCat => 4
  | .runtime => 5
  | .other => 6

/-- The JS object key for a category (`mostCommon` is such a string). -/
def catName : ErrorCategory → String
  | .timeout => "timeout"
  | .memory => "memory"
  | .permission => "permission"
  | .importDep => "import"
  | .syntaxCat => "syntax"
  | .runtime => "runtime"
  | .other => "other"

/-- Tests whether `needle` occurs as a contiguous substring of `hay`
(JS `String.prototype.includes`). -/
def infixCheck (needle : List Char) : List Char → Bool
  | [] => needle.isEmpty
  | b :: bs => needle.isPrefixOf (b :: bs) || infixCheck needle bs

def containsSub (hay needle : String) : Bool :=
  infixCheck needle.data hay.data

/-- JS `String.prototype.toLowerCase` on the character list. -/
def toLowerStr (s : String) : String :=
  ⟨s.data.map Char.toLower⟩

/-- The per-message branch of the `errorLogs.forEach` loop in
`extractErrorPatterns` (`error-monitor.js` lines 237-255): the first
matching keyword test wins, unmatched messages fall to `other`. -/
def classifyLog (message : String) : ErrorCategory :=
  let m := toLowerStr message
  if containsSub m "timeout" || containsSub m "timed out" then .timeout
  else if containsSub m "memory" || containsSub m "out of memory" then .memory
  else if containsSub m "permission" || containsSub m "access denied" then .permission
  else if containsSub m "cannot find module" || containsSub m "import" then .importDep
  else if containsSub m "syntax error" || containsSub m "unexpected token" then .syntaxCat
  else if containsSub m "runtime error" || containsSub m "typeerror" then .runtime
  else .other

/-- The `patterns` counter object of `extractErrorPatterns`. -/
structure ErrorPatterns where
  timeout : Nat
  memory : Nat
  permission : Nat
  importDep : Nat
  syntaxCat : Nat
  runtime : Nat
  other : Nat
deriving DecidableEq, Repr

/-- Performs `patterns[c]++` for the category the message matched. -/
def bumpCategory (p : ErrorPatterns) : ErrorCategory → ErrorPatterns
  | .timeout => { p with timeout := p.timeout + 1 }
  | .memory => { p with memory := p.memory + 1 }
  | .permission => { p with permission := p.permission + 1 }
  | .importDep => { p with importDep := p.importDep + 1 }
  | .syntaxCat => { p with syntaxCat := p.syntaxCat + 1 }
  | .runtime => { p with runtime := p.runtime + 1 }
  | .other => { p with other := p.other + 1 }

/-- Reads `patterns[c]` as a function of the category. -/
def countOf (p : ErrorPatterns) : ErrorCategory → Nat
  | .timeout => p.timeout
  | .memory => p.memory
  | .permission => p.permission
  | .importDep => p.importDep
  | .syntaxCat => p.syntaxCat
  | .runtime => p.runtime
  | .other => p.other

/-- Lists `Object.entries(patterns)` in declaration order. -/
def patternEntries (p : ErrorPatterns) : List (ErrorCategory × Nat) :=
  [(.timeout, p.timeout), (.memory, p.memory), (.permission, p.permission),
   (.importDep, p.importDep), (.syntaxCat, p.syntaxCat), (.runtime, p.runtime),
   (.other, p.other)]

/-- The reducer `(a, b) => patterns[a[0]] > patterns[b[0]] ? a : b` of the
`mostCommon` computation; since an entry pairs a key with its count,
`patterns[a[0]]` is `a.2`.  The accumulator survives only on a strictly
greater count, so a tie moves to the later entry. -/
def jsReduceStep (a b : ErrorCategory × Nat) : ErrorCategory × Nat :=
  if a.2 > b.2 then a else b

/-- The `mostCommon` computation of `extractErrorPatterns`
(`error-monitor.js` line 260):
`Object.entries(patterns).reduce((a, b) => patterns[a[0]] > patterns[b[0]] ? a : b)[0]`.
JS `reduce` without an initial value starts from the first entry. -/
def reduceMostCommon (p : ErrorPatterns) : ErrorCategory :=
  match patternEntries p with
  | [] => .other
  | e :: es => (es.foldl jsReduceStep e).1

/-- Return value of `extractErrorPatterns`. -/
structure PatternSummary where
  patterns : ErrorPatterns
  totalErrors : Nat
  mostCommon : ErrorCategory
deriving DecidableEq, Repr

/-- Embeds `LambdaErrorMonitor.extractErrorPatterns` (`error-monitor.js` lines
226-262), with each log reduced to its `message` string. -/
def extractErrorPatterns (errorLogs : List String) : PatternSummary :=
  let patterns := errorLogs.foldl (fun p log => bumpCategory p (classifyLog log)) ⟨0, 0, 0, 0, 0, 0, 0⟩
  ⟨patterns, errorLogs.length, reduceMostCommon patterns⟩

/-- Sum of all per-category counts of a `patterns` object. -/
def countSum (p : ErrorPatterns) : Nat :=
  p.timeout + p.memory + p.permission + p.importDep + p.syntaxCat + p.runtime + p.other

/-- One entry of the `recommendations` object inside
`simulateKnowledgeAnalysis` (`error-monitor.js` lines 271-328). -/
structure Recommendation where
  shouldFix : Bool
  fixType : String
  description : String
  solutionType : String
deriving DecidableEq, Repr

/-- The `recommendations` object of `simulateKnowledgeAnalysis`: keys
`timeout, memory, permission, import, syntax, runtime`.  There is no
`other` key, so a lookup for `other` yields nothing. -/
def recommendationsTable : ErrorCategory → Option Recommendation
  | .timeout => some ⟨true, "configuration", "Function timeout issue detected", "updateTimeout"⟩
  | .memory => some ⟨true, "configuration", "Memory allocation issue detected", "updateMemory"⟩
  | .permission => some ⟨false, "iam", "IAM permission issue detected", "iamUpdate"⟩
  | .importDep => some ⟨true, "code", "Module import/dependency issue detected", "dependencyFix"⟩
  | .syntaxCat => some ⟨true, "code", "Syntax error detected", "syntaxFix"⟩
  | .runtime => some ⟨true, "code", "Runtime error detected", "runtimeFix"⟩
  | .other => none

/-- Return value of `simulateKnowledgeAnalysis`: the spread of the looked-up
recommendation (possibly absent) plus `errorType`, `errorCount` and
`confidence`. -/
structure AnalysisResult where
  recommendation : Option Recommendation
  errorType : ErrorCategory
  errorCount : Nat
  confidence : String
deriving DecidableEq, Repr

/-- Embeds `LambdaErrorMonitor.simulateKnowledgeAnalysis` (`error-monitor.js`
lines 267-338).  The JS lookup is
`recommendations[mostCommon] || recommendations.other`; since the object has
no `other` key the fallback is `undefined`, modelled as `none`. -/
def simulateKnowledgeAnalysis (errorPatterns : PatternSummary) : AnalysisResult :=
  let recommendation :=
    match recommendationsTable errorPatterns.mostCommon with
    | some r => some r
    | none => recommendationsTable .other
  ⟨recommendation, errorPatterns.mostCommon, errorPatterns.totalErrors,
    if errorPatterns.totalErrors > 10 then "high" else "medium"⟩

/-- How `monitorFunctions` consumes the analysis (`error-monitor.js` line 52:
`fixRecommendation && fixRecommendation.shouldFix`): a missing
recommendation object or a missing `shouldFix` field is falsy. -/
def effectiveShouldFix (a : AnalysisResult) : Bool :=
  match a.recommendation with
  | some r => r.shouldFix
  | none => false

end ErrorMonitor

namespace KnowledgeIntegration

open ErrorMonitor

/-- Embeds `AWSKnowledgeIntegration.shouldAutoFix` (`knowledge-integration.js`
lines 671-676): auto-fix only for the four listed type strings and at least
`highConfidenceThreshold = 10` total errors. -/
def shouldAutoFix (errorType : String) (totalErrors : Nat) : Bool :=
  let autoFixableTypes := ["timeout", "memory", "import", "syntax"]
  autoFixableTypes.contains errorType && decide (totalErrors ≥ 10)

end KnowledgeIntegration

namespace Orchestrator

/-- One value of the orchestrator's `fixAttempts` map
(`lambda-error-orchestrator.js`). -/
structure FixAttemptEntry where
  attempts : Nat
  consecutiveFailures : Nat
  timestamp : Int
deriving DecidableEq, Repr

/-- The `fixAttempts` map, keyed by function name. -/
abbrev FixAttemptsMap : Type := String → Option FixAttemptEntry

/-- Models `this.fixAttempts.set(fn, e)` and `this.fixAttempts.delete(fn)`
(the latter with `e = none`). -/
def setEntry (m : FixAttemptsMap) (functionName : String) (e : Option FixAttemptEntry) :
    FixAttemptsMap :=
  fun x => if x = functionName then e else m x

/-- Embeds `LambdaErrorOrchestrator.shouldAttemptFix` (lines 256-283): the
eligibility gate.  Returns the admission decision and the possibly updated
map (the stale-entry branch deletes the entry). -/
def shouldAttemptFix (m : FixAttemptsMap) (fixCooldown : Int) (now : Int)
    (functionName : String) : Bool × FixAttemptsMap :=
  match m functionName with
  | none => (true, m)
  | some lastAttempt =>
    let timeSinceLastAttempt := now - lastAttempt.timestamp
    if timeSinceLastAttempt < fixCooldown then
      (false, m)
    else if timeSinceLastAttempt > fixCooldown * 2 then
      (true, setEntry m functionName none)
    else if lastAttempt.consecutiveFailures ≥ 3 then
      (false, m)
    else
      (true, m)

/-- Embeds `LambdaErrorOrchestrator.recordFixAttempt` (lines 288-296): bumps
`attempts`, keeps `consecutiveFailures`, stamps `now`. -/
def recordFixAttempt (m : FixAttemptsMap) (now : Int) (functionName : String) :
    FixAttemptsMap :=
  let existing := (m functionName).getD ⟨0, 0, 0⟩
  setEntry m functionName (some ⟨existing.attempts + 1, existing.consecutiveFailures, now⟩)

/-- Embeds `LambdaErrorOrchestrator.recordFixResult` (lines 301-315): resets
`consecutiveFailures` on success, increments it on failure.  The source
defines this method but no code path ever invokes it. -/
def recordFixResult (m : FixAttemptsMap) (functionName : String) (success : Bool) :
    FixAttemptsMap :=
  match m functionName with
  | none => m
  | some existing =>
    setEntry m functionName
      (some { existing with consecutiveFailures :=
        if success then 0 else existing.consecutiveFailures + 1 })

/-- The cooldown-map effect of `LambdaErrorOrchestrator.applyFixToFunction`
(lines 219-251) for one completed attempt: the only map write on this path
is `recordFixAttempt` before the fix runs; whether the fix then succeeds or
fails, no further map write happens (`recordFixResult` is never called). -/
def applyFixToFunction (m : FixAttemptsMap) (now : Int) (functionName : String)
    (fixSucceeds : Bool) : FixAttemptsMap × Bool :=
  (recordFixAttempt m now functionName, fixSucceeds)

/-- Embeds `LambdaErrorOrchestrator.chunkArray` (lines 320-326):
`for (let i = 0; i < array.length; i += chunkSize) chunks.push(array.slice(i, i + chunkSize))`.
A `chunkSize` of zero never terminates in the source; the orchestrator
always passes `maxConcurrentFixes ≥ 1`, and the model returns `[]` there. -/
def chunkArray (array : List α) (chunkSize : Nat) : List (List α) :=
  if array.isEmpty then []
  else if chunkSize = 0 then []
  else array.take chunkSize :: chunkArray (array.drop chunkSize) chunkSize
termination_by array.length
decreasing_by
  simp only [List.isEmpty_eq_true] at *
  have : array.length ≠ 0 := by
    intro h
    exact ‹array ≠ []› (List.length_eq_zero.mp h)
  simp [List.length_drop]
  omega

/-- The batch loop of `LambdaErrorOrchestrator.applyFixes` (lines 164-214):
eligible functions are chunked by `maxConcurrentFixes`; each batch is fully
settled (`await Promise.allSettled`) and its results appended before the
next batch starts; a rejected attempt is recorded as its `Except.error`
value and does not disturb its siblings. -/
def applyFixes (attempt : α → Except ε β) (functionsToFix : List α)
    (maxConcurrentFixes : Nat) : List (Except ε β) :=
  (chunkArray functionsToFix maxConcurrentFixes).foldl
    (fun fixPromises batch => fixPromises ++ batch.map attempt) []

end Orchestrator

namespace AutoFixer

/-- The control-plane state of one Lambda function visible to the fixer:
its configuration, its code, the last published version number, and the
version the `PROD` alias points at. -/
structure FnState where
  timeout : Nat
  memorySize : Nat
  codeRev : Nat
  latestVersion : Nat
  prodAlias : Nat
deriving DecidableEq, Repr

/-- Call-sequence context: `idx` counts the Lambda MCP calls made so far
within one attempt; the oracle decides per index whether a call succeeds. -/
structure Ctx where
  idx : Nat
  st : FnState
deriving DecidableEq, Repr

/-- Decides, per sequential call position, whether that external Lambda MCP
call succeeds (`true`) or throws (`false`). -/
abbrev Oracle : Type := Nat → Bool

/-- Embeds `LambdaAutoFixer.callLambdaMCP` (lines 1073-1093): on success the
operation's effect is applied and its value returned; on failure it throws
`Lambda MCP <operation> failed: ...`, leaving the state untouched. -/
def callLambdaMCP (oracle : Oracle) (operation : String)
    (eff : FnState → FnState × α) (c : Ctx) : Except String α × Ctx :=
  if oracle c.idx then
    let r := eff c.st
    (Except.ok r.2, ⟨c.idx + 1, r.1⟩)
  else
    (Except.error ("Lambda MCP " ++ operation ++ " failed"), ⟨c.idx + 1, c.st⟩)

/-- The configuration record returned by `getFunction`. -/
structure FnConfig where
  timeout : Nat
  memorySize : Nat
deriving DecidableEq, Repr

def getFunction (oracle : Oracle) (c : Ctx) : Except String FnConfig × Ctx :=
  callLambdaMCP oracle "getFunction" (fun s => (s, ⟨s.timeout, s.memorySize⟩)) c

def getAlias (oracle : Oracle) (c : Ctx) : Except String Nat × Ctx :=
  callLambdaMCP oracle "getAlias" (fun s => (s, s.prodAlias)) c

def updateConfigTimeout (oracle : Oracle) (newTimeout : Nat) (c : Ctx) :
    Except String Unit × Ctx :=
  callLambdaMCP oracle "updateFunctionConfiguration"
    (fun s => ({ s with timeout := newTimeout }, ())) c

def updateConfigMemory (oracle : Oracle) (newMemory : Nat) (c : Ctx) :
    Except String Unit × Ctx :=
  callLambdaMCP oracle "updateFunctionConfiguration"
    (fun s => ({ s with memorySize := newMemory }, ())) c

def updateFunctionCode (oracle : Oracle) (c : Ctx) : Except String Unit × Ctx :=
  callLambdaMCP oracle "updateFunctionCode"
    (fun s => ({ s with codeRev := s.codeRev + 1 }, ())) c

/-- Models `publishVersion`: creates the next immutable version and returns
its number. -/
def publishVersion (oracle : Oracle) (c : Ctx) : Except String Nat × Ctx :=
  callLambdaMCP oracle "publishVersion"
    (fun s => ({ s with latestVersion := s.latestVersion + 1 }, s.latestVersion + 1)) c

def updateAlias (oracle : Oracle) (functionVersion : Nat) (c : Ctx) :
    Except String Unit × Ctx :=
  callLambdaMCP oracle "updateAlias"
    (fun s => ({ s with prodAlias := functionVersion }, ())) c

/-- Holds `getCurrentFunctionState`'s return value (lines 1098-1120): the
pre-attempt `PROD` alias target and configuration. -/
structure Snapshot where
  currentVersion : Nat
  configuration : FnConfig
deriving DecidableEq, Repr

/-- Embeds `LambdaAutoFixer.getCurrentFunctionState` (lines 1098-1120):
`getFunction` then `getAlias`; rethrows on either failure. -/
def getCurrentFunctionState (oracle : Oracle) (c : Ctx) :
    Except String Snapshot × Ctx :=
  match getFunction oracle c with
  | (.error e, c') => (.error e, c')
  | (.ok cfg, c') =>
    match getAlias oracle c' with
    | (.error e, c'') => (.error e, c'')
    | (.ok v, c'') => (.ok ⟨v, cfg⟩, c'')

/-- The `solution.type` variants dispatched by `executeFix`
(lines 813-835). -/
inductive Solution where
  | updateTimeout (newTimeout : Nat)
  | updateMemory (newMemory : Nat)
  | updateDependencies (suggestedPackages : List String)
  | fixSyntaxIssues (errorLocations : Nat)
  | addErrorHandling (areas : List String)
deriving DecidableEq, Repr

/-- The fix-result record flowing from `executeFix` into `verifyFix`: the
applied solution and the version published by the attempt. -/
structure FixExec where
  sol : Solution
  version : Nat
deriving DecidableEq, Repr

/-- Embeds `LambdaAutoFixer.updateFunctionTimeout` (lines 840-875): update the
configuration, publish a version, point `PROD` at it. -/
def updateFunctionTimeout (oracle : Oracle) (newTimeout : Nat) (c : Ctx) :
    Except String FixExec × Ctx :=
  match updateConfigTimeout oracle newTimeout c with
  | (.error e, c') => (.error e, c')
  | (.ok _, c') =>
    match publishVersion oracle c' with
    | (.error e, c'') => (.error e, c'')
    | (.ok v, c'') =>
      match updateAlias oracle v c'' with
      | (.error e, c3) => (.error e, c3)
      | (.ok _, c3) => (.ok ⟨.updateTimeout newTimeout, v⟩, c3)

/-- Embeds `LambdaAutoFixer.updateFunctionMemory` (lines 880-915). -/
def updateFunctionMemory (oracle : Oracle) (newMemory : Nat) (c : Ctx) :
    Except String FixExec × Ctx :=
  match updateConfigMemory oracle newMemory c with
  | (.error e, c') => (.error e, c')
  | (.ok _, c') =>
    match publishVersion oracle c' with
    | (.error e, c'') => (.error e, c'')
    | (.ok v, c'') =>
      match updateAlias oracle v c'' with
      | (.error e, c3) => (.error e, c3)
      | (.ok _, c3) => (.ok ⟨.updateMemory newMemory, v⟩, c3)

/-- Common body of the three code-change fixes
(`updateFunctionDependencies` lines 920-972, `fixFunctionSyntax` lines
977-1020, `addErrorHandling` lines 1025-1068): read the current code,
upload the transformed code, publish, point `PROD` at the new version.
The in-memory code transformation itself is pure and cannot fail. -/
def codeFixFlow (oracle : Oracle) (sol : Solution) (c : Ctx) :
    Except String FixExec × Ctx :=
  match getFunction oracle c with
  | (.error e, c') => (.error e, c')
  | (.ok _, c') =>
    match updateFunctionCode oracle c' with
    | (.error e, c'') => (.error e, c'')
    | (.ok _, c'') =>
      match publishVersion oracle c'' with
      | (.error e, c3) => (.error e, c3)
      | (.ok v, c3) =>
        match updateAlias oracle v c3 with
        | (.error e, c4) => (.error e, c4)
        | (.ok _, c4) => (.ok ⟨sol, v⟩, c4)

/-- Embeds `LambdaAutoFixer.executeFix` (lines 813-835): dispatch on
`solution.type`. -/
def executeFix (oracle : Oracle) (sol : Solution) (c : Ctx) :
    Except String FixExec × Ctx :=
  match sol with
  | .updateTimeout newTimeout => updateFunctionTimeout oracle newTimeout c
  | .updateMemory newMemory => updateFunctionMemory oracle newMemory c
  | .updateDependencies pkgs => codeFixFlow oracle (.updateDependencies pkgs) c
  | .fixSyntaxIssues locs => codeFixFlow oracle (.fixSyntaxIssues locs) c
  | .addErrorHandling areas => codeFixFlow oracle (.addErrorHandling areas) c

/-- Holds `verifyFix`'s return value. -/
structure Verification where
  success : Bool
deriving DecidableEq, Repr

/-- Embeds `LambdaAutoFixer.verifyFix` (lines 1177-1228): after the settle delay,
re-read the function and the `PROD` alias; configuration fixes check the
exact numeric value, code fixes check that the alias points at the new
version.  Any thrown read is caught and reported as `success: false`. -/
def verifyFix (oracle : Oracle) (fixResult : FixExec) (c : Ctx) :
    Verification × Ctx :=
  match getFunction oracle c with
  | (.error _, c') => (⟨false⟩, c')
  | (.ok cfg, c') =>
    match getAlias oracle c' with
    | (.error _, c'') => (⟨false⟩, c'')
    | (.ok aliasVersion, c'') =>
      let verificationPassed :=
        match fixResult.sol with
        | .updateTimeout newTimeout => cfg.timeout == newTimeout
        | .updateMemory newMemory => cfg.memorySize == newMemory
        | _ => aliasVersion == fixResult.version
      (⟨verificationPassed⟩, c'')

/-- Embeds `LambdaAutoFixer.rollbackFix` (lines 1233-1256): point `PROD` back at
the snapshot's version; rethrows on failure. -/
def rollbackFix (oracle : Oracle) (previousState : Snapshot) (c : Ctx) :
    Except String Unit × Ctx :=
  updateAlias oracle previousState.currentVersion c

/-- The result object `applyFix` returns to its caller.  The success result
carries no `rolledBack` field (falsy, modelled `false`) and no error; both
failure results carry `rolledBack: true`. -/
structure FixAttemptResult where
  success : Bool
  rolledBack : Bool
  version : Option Nat
  error : Option String
deriving DecidableEq, Repr

/-- What physically terminated the attempt: `committed` when verification
succeeded, `rolledBack` when a compensating `rollbackFix` call succeeded,
`failed` when the attempt ended with the rollback never run or failed. -/
inductive AttemptOutcome where
  | committed
  | rolledBack
  | failed
deriving DecidableEq, Repr

/-- Embeds `LambdaAutoFixer.applyFix` (lines 754-808): snapshot, execute, verify,
and on any failure a best-effort rollback.  The JS control flow:
 * a `getCurrentFunctionState` throw reaches the catch with no snapshot in
   `deploymentHistory` for this attempt, so no rollback runs;
 * an `executeFix` throw reaches the catch, which rolls back once;
 * a verification failure rolls back in the happy path; if that rollback
   throws, the catch retries the rollback once more;
 * every catch-path return carries `rolledBack: true` regardless of whether
   any rollback call succeeded. -/
def applyFix (oracle : Oracle) (sol : Solution) (s0 : FnState) :
    FixAttemptResult × AttemptOutcome × FnState :=
  match getCurrentFunctionState oracle ⟨0, s0⟩ with
  | (.error e, c1) =>
    (⟨false, true, none, some e⟩, .failed, c1.st)
  | (.ok snap, c1) =>
    match executeFix oracle sol c1 with
    | (.error e, c2) =>
      match rollbackFix oracle snap c2 with
      | (.ok _, c3) => (⟨false, true, none, some e⟩, .rolledBack, c3.st)
      | (.error _, c3) => (⟨false, true, none, some e⟩, .failed, c3.st)
    | (.ok fixResult, c2) =>
      if (verifyFix oracle fixResult c2).1.success then
        (⟨true, false, some fixResult.version, none⟩, .committed,
          (verifyFix oracle fixResult c2).2.st)
      else
        match rollbackFix oracle snap (verifyFix oracle fixResult c2).2 with
        | (.ok _, c4) =>
          (⟨false, true, none, some "Fix verification failed"⟩, .rolledBack, c4.st)
        | (.error e, c4) =>
          match rollbackFix oracle snap c4 with
          | (.ok _, c5) => (⟨false, true, none, some e⟩, .rolledBack, c5.st)
          | (.error _, c5) => (⟨false, true, none, some e⟩, .failed, c5.st)

end AutoFixer

open ErrorMonitor KnowledgeIntegration Orchestrator AutoFixer

/-! ## Supporting lemmas -/

/-- Bumping one category's counter raises the total by exactly one. -/
theorem countSum_bumpCategory (p : ErrorPatterns) (c : ErrorCategory) :
    countSum (bumpCategory p c) = countSum p + 1 := by
  cases c <;> simp [countSum, bumpCategory] <;> omega

/-- The classification fold raises the total count by the number of logs. -/
theorem countSum_foldl (errorLogs : List String) (p : ErrorPatterns) :
    countSum (errorLogs.foldl (fun q log => bumpCategory q (classifyLog log)) p)
      = countSum p + errorLogs.length := by
  induction errorLogs generalizing p with
  | nil => simp
  | cons l t ih => simp [List.foldl, ih, countSum_bumpCategory]; omega

/-- Behaviour of the JS `reduce` over a key-indexed entry list: starting
from `a` and folding `jsReduceStep` over `l`, the result is one of the
entries, attains the maximal count, and every entry tied with it sits at
the same or an earlier declaration index (a tie moves to the later entry,
so the last tied entry wins). -/
theorem jsReduce_spec (l : List (ErrorCategory × Nat)) :
    ∀ a : ErrorCategory × Nat,
      (a :: l).Pairwise (fun y z => catIdx y.1 < catIdx z.1) →
      (l.foldl jsReduceStep a ∈ a :: l) ∧
      (∀ y ∈ a :: l, y.2 ≤ (l.foldl jsReduceStep a).2) ∧
      (∀ y ∈ a :: l, y.2 = (l.foldl jsReduceStep a).2 →
        catIdx y.1 ≤ catIdx (l.foldl jsReduceStep a).1) := by
  induction l with
  | nil =>
    intro a _
    simp
  | cons b t ih =>
    intro a hp
    rw [List.foldl_cons]
    have ha : ∀ y ∈ b :: t, catIdx a.1 < catIdx y.1 := (List.pairwise_cons.mp hp).1
    have hp' : (b :: t).Pairwise (fun y z => catIdx y.1 < catIdx z.1) :=
      (List.pairwise_cons.mp hp).2
    by_cases hab : a.2 > b.2
    · have hstep : jsReduceStep a b = a := if_pos hab
      rw [hstep]
      have hpa : (a :: t).Pairwise (fun y z => catIdx y.1 < catIdx z.1) :=
        List.pairwise_cons.mpr
          ⟨fun y hy => ha y (List.mem_cons_of_mem b hy), (List.pairwise_cons.mp hp').2⟩
      obtain ⟨hmem, hmax, htie⟩ := ih a hpa
      have haR : a.2 ≤ (t.foldl jsReduceStep a).2 := hmax a (List.mem_cons_self a t)
      refine ⟨?_, ?_, ?_⟩
      · rcases List.mem_cons.mp hmem with h | h
        · rw [h]; exact List.mem_cons_self a (b :: t)
        · exact List.mem_cons_of_mem a (List.mem_cons_of_mem b h)
      · intro y hy
        rcases List.mem_cons.mp hy with rfl | hy'
        · exact haR
        · rcases List.mem_cons.mp hy' with rfl | hy''
          · omega
          · exact hmax y (List.mem_cons_of_mem a hy'')
      · intro y hy heq
        rcases List.mem_cons.mp hy with rfl | hy'
        · exact htie y (List.mem_cons_self y t) heq
        · rcases List.mem_cons.mp hy' with rfl | hy''
          · omega
          · exact htie y (List.mem_cons_of_mem a hy'') heq
    · have hstep : jsReduceStep a b = b := if_neg hab
      rw [hstep]
      obtain ⟨hmem, hmax, htie⟩ := ih b hp'
      have hbR : b.2 ≤ (t.foldl jsReduceStep b).2 := hmax b (List.mem_cons_self b t)
      refine ⟨List.mem_cons_of_mem a hmem, ?_, ?_⟩
      · intro y hy
        rcases List.mem_cons.mp hy with rfl | hy'
        · omega
        · exact hmax y hy'
      · intro y hy heq
        rcases List.mem_cons.mp hy with rfl | hy'
        · have h2 := ha _ hmem
          omega
        · exact htie y hy' heq

/-- Every entry of `patternEntries p` pairs a category with its count. -/
theorem patternEntries_snd (p : ErrorPatterns) :
    ∀ y ∈ patternEntries p, y.2 = countOf p y.1 := by
  intro y hy
  simp only [patternEntries, List.mem_cons, List.not_mem_nil, or_false] at hy
  rcases hy with rfl | rfl | rfl | rfl | rfl | rfl | rfl <;> simp [countOf]

/-- Every category appears in `patternEntries p` with its count. -/
theorem patternEntries_mem (p : ErrorPatterns) (c : ErrorCategory) :
    (c, countOf p c) ∈ patternEntries p := by
  cases c <;> simp [patternEntries, countOf]

/-- Characterisation of `mostCommon`: it attains the maximal count, and
every category tied with it sits at the same or an earlier declaration
index — the last-declared category among those with the maximal count
wins. -/
theorem reduceMostCommon_max_last (p : ErrorPatterns) :
    (∀ c, countOf p c ≤ countOf p (reduceMostCommon p)) ∧
    (∀ c, countOf p c = countOf p (reduceMostCommon p) →
      catIdx c ≤ catIdx (reduceMostCommon p)) := by
  have hpw : (patternEntries p).Pairwise (fun y z => catIdx y.1 < catIdx z.1) := by
    simp [patternEntries, catIdx]
  obtain ⟨hmem, hmax, htie⟩ :=
    jsReduce_spec
      [(.memory, p.memory), (.permission, p.permission), (.importDep, p.importDep),
       (.syntaxCat, p.syntaxCat), (.runtime, p.runtime), (.other, p.other)]
      (.timeout, p.timeout) hpw
  have hred : reduceMostCommon p
      = (List.foldl jsReduceStep (ErrorCategory.timeout, p.timeout)
          [(.memory, p.memory), (.permission, p.permission), (.importDep, p.importDep),
           (.syntaxCat, p.syntaxCat), (.runtime, p.runtime), (.other, p.other)]).1 := rfl
  have hr2 : (List.foldl jsReduceStep (ErrorCategory.timeout, p.timeout)
      [(.memory, p.memory), (.permission, p.permission), (.importDep, p.importDep),
       (.syntaxCat, p.syntaxCat), (.runtime, p.runtime), (.other, p.other)]).2
      = countOf p (reduceMostCommon p) := by
    rw [hred]
    exact patternEntries_snd p _ hmem
  constructor
  · intro c
    rw [← hr2]
    exact hmax (c, countOf p c) (patternEntries_mem p c)
  · intro c hc
    rw [hred]
    exact htie (c, countOf p c) (patternEntries_mem p c) (by rw [hr2]; exact hc)

/-! ## Claim theorems -/

/-- C6: for every sequence of diagnostic log samples, the per-category
counts produced by `extractErrorPatterns` sum to the length of the input
sequence — each sample increments exactly one category, unmatched samples
landing in `other`. -/
theorem classifier_counts_sum_to_length (errorLogs : List String) :
    countSum (extractErrorPatterns errorLogs).patterns = errorLogs.length := by
  show countSum (errorLogs.foldl (fun q log => bumpCategory q (classifyLog log))
    ⟨0, 0, 0, 0, 0, 0, 0⟩) = errorLogs.length
  rw [countSum_foldl]
  simp [countSum]

/-- C7: on the empty input `extractErrorPatterns` does not fail: it returns
all per-category counts zero, total count zero, and dominant category
`other`. -/
theorem classifier_empty_input :
    (extractErrorPatterns []).patterns = ⟨0, 0, 0, 0, 0, 0, 0⟩ ∧
    (extractErrorPatterns []).totalErrors = 0 ∧
    (extractErrorPatterns []).mostCommon = ErrorCategory.other := by
  decide

/-- C5 counterexample: with one sample matching `timeout` and one matching
`memory`, both categories tie for the highest count (1), yet the dominant
category is `memory`, not the first-declared `timeout` — the claim's
first-declared tie-breaking is false on the code. -/
theorem dominant_tie_counterexample :
    countOf (extractErrorPatterns ["timed out", "memory"]).patterns .timeout = 1 ∧
    countOf (extractErrorPatterns ["timed out", "memory"]).patterns .memory = 1 ∧
    (extractErrorPatterns ["timed out", "memory"]).patterns.permission = 0 ∧
    (extractErrorPatterns ["timed out", "memory"]).patterns.importDep = 0 ∧
    (extractErrorPatterns ["timed out", "memory"]).patterns.syntaxCat = 0 ∧
    (extractErrorPatterns ["timed out", "memory"]).patterns.runtime = 0 ∧
    (extractErrorPatterns ["timed out", "memory"]).patterns.other = 0 ∧
    (extractErrorPatterns ["timed out", "memory"]).mostCommon = ErrorCategory.memory ∧
    (extractErrorPatterns ["timed out", "memory"]).mostCommon ≠ ErrorCategory.timeout := by
  decide

/-- C5 amended: for every sequence of diagnostic samples the dominant
category attains the highest per-category count, and when two or more
categories tie for the highest count the dominant one is the
last-declared among them in the enumeration order (timeout, memory,
permission, import/dependency, syntax, runtime, other). -/
theorem dominant_is_last_declared_max (errorLogs : List String) :
    (∀ c, countOf (extractErrorPatterns errorLogs).patterns c
        ≤ countOf (extractErrorPatterns errorLogs).patterns
            (extractErrorPatterns errorLogs).mostCommon) ∧
    (∀ c, countOf (extractErrorPatterns errorLogs).patterns c
        = countOf (extractErrorPatterns errorLogs).patterns
            (extractErrorPatterns errorLogs).mostCommon →
      catIdx c ≤ catIdx (extractErrorPatterns errorLogs).mostCommon) :=
  reduceMostCommon_max_last (extractErrorPatterns errorLogs).patterns

/-- Witness for the amended C5 theorem at the concrete tie input. -/
theorem dominant_is_last_declared_max_witness :
    catIdx ErrorCategory.timeout
      ≤ catIdx (extractErrorPatterns ["timed out", "memory"]).mostCommon :=
  (dominant_is_last_declared_max ["timed out", "memory"]).2 .timeout (by decide)

/-- C8 (code bug): the remediation lookup of `simulateKnowledgeAnalysis`
has no entry for `other`, and its fallback `recommendations.other` is
itself missing, so a dominant category of `other` yields an analysis with
no remediation descriptor at all; its missing `shouldFix` is falsy, and
`shouldAutoFix` also refuses `other`, so such a result is never auto-fixed. -/
theorem other_category_has_no_descriptor :
    recommendationsTable ErrorCategory.other = none ∧
    (extractErrorPatterns ["boom"]).mostCommon = ErrorCategory.other ∧
    (simulateKnowledgeAnalysis (extractErrorPatterns ["boom"])).recommendation = none ∧
    effectiveShouldFix (simulateKnowledgeAnalysis (extractErrorPatterns ["boom"])) = false ∧
    shouldAutoFix "other" 50 = false := by
  decide

/-- C10: `shouldAutoFix` recommends automatic application exactly when the
dominant category is one of timeout, memory, import, syntax and the total
error count is at least 10; permission, runtime and other are never
auto-fixed, nor is any count below 10. -/
theorem shouldAutoFix_gate (c : ErrorCategory) (totalErrors : Nat) :
    shouldAutoFix (catName c) totalErrors = true ↔
      ((c = .timeout ∨ c = .memory ∨ c = .importDep ∨ c = .syntaxCat) ∧
        10 ≤ totalErrors) := by
  cases c <;> simp [shouldAutoFix, catName]

/-- Witness for C10 at a concrete admissible input. -/
theorem shouldAutoFix_gate_witness : shouldAutoFix "timeout" 12 = true :=
  (shouldAutoFix_gate .timeout 12).mpr ⟨Or.inl rfl, by omega⟩

/-- C3 (code bug): a completed attempt never updates `consecutiveFailures`.
After one and then a second failed attempt for `f2` the recorded entry
still shows zero consecutive failures, whereas the never-invoked
`recordFixResult` would have produced the claimed increment (and the
claimed reset on success). -/
theorem consecutiveFailures_never_updated :
    (((applyFixToFunction (fun _ => none) 1000 "f2" false).1 "f2").map
        FixAttemptEntry.consecutiveFailures = some 0) ∧
    (((applyFixToFunction (applyFixToFunction (fun _ => none) 1000 "f2" false).1
        2000 "f2" false).1 "f2").map
        FixAttemptEntry.consecutiveFailures = some 0) ∧
    ((recordFixResult (applyFixToFunction (fun _ => none) 1000 "f2" false).1
        "f2" false "f2").map FixAttemptEntry.consecutiveFailures = some 1) ∧
    ((recordFixResult (applyFixToFunction (fun _ => none) 1000 "f2" false).1
        "f2" true "f2").map FixAttemptEntry.consecutiveFailures = some 0) := by
  decide

/-- C4: a resource whose entry has three or more consecutive failures is
admitted by the eligibility gate exactly when the elapsed time since its
last attempt exceeds twice the cooldown duration, and in that case the
stale entry is discarded. -/
theorem circuit_breaker_gate (m : FixAttemptsMap) (fixCooldown now : Int)
    (functionName : String) (e : FixAttemptEntry)
    (hm : m functionName = some e) (hcd : 0 ≤ fixCooldown)
    (h3 : 3 ≤ e.consecutiveFailures) :
    ((shouldAttemptFix m fixCooldown now functionName).1 = true ↔
      now - e.timestamp > 2 * fixCooldown) ∧
    (now - e.timestamp > 2 * fixCooldown →
      (shouldAttemptFix m fixCooldown now functionName).2 functionName = none) := by
  simp only [shouldAttemptFix, hm]
  split_ifs with h1 h2 _hbrk <;>
    refine ⟨?_, fun hgt => ?_⟩ <;>
      simp_all [setEntry] <;> omega

/-- Witness for C4: entry with three consecutive failures, cooldown five
minutes, last attempt eleven minutes ago — admitted, entry discarded. -/
theorem circuit_breaker_gate_witness :
    (shouldAttemptFix (setEntry (fun _ => none) "f3" (some ⟨4, 3, 0⟩))
      300000 660000 "f3").1 = true ∧
    (shouldAttemptFix (setEntry (fun _ => none) "f3" (some ⟨4, 3, 0⟩))
      300000 660000 "f3").2 "f3" = none := by
  have h := circuit_breaker_gate (setEntry (fun _ => none) "f3" (some ⟨4, 3, 0⟩))
    300000 660000 "f3" ⟨4, 3, 0⟩ (by decide) (by decide) (by decide)
  exact ⟨h.1.mpr (by decide), h.2 (by decide)⟩

/-- Concatenating the chunks of `chunkArray` restores the input list. -/
theorem chunkArray_join (k : Nat) (hk : 1 ≤ k) (l : List α) :
    (chunkArray l k).flatten = l := by
  generalize hn : l.length = n
  induction n using Nat.strong_induction_on generalizing l with
  | _ n ih =>
    rw [chunkArray]
    by_cases hl : l.isEmpty
    · rw [if_pos hl]
      rw [List.isEmpty_iff] at hl
      simp [hl]
    · rw [if_neg hl, if_neg (by omega : ¬ k = 0)]
      rw [List.isEmpty_iff] at hl
      have hpos : 0 < l.length := List.length_pos.mpr hl
      have hlt : (l.drop k).length < n := by
        rw [List.length_drop]
        omega
      rw [List.flatten_cons, ih _ (by omega) (l.drop k) rfl]
      exact List.take_append_drop k l

/-- The batch loop accumulator: folding append over the chunk list yields
the concatenation of the per-batch result blocks, in batch order. -/
theorem applyFixes_foldl (attempt : α → Except ε β)
    (chunks : List (List α)) (acc : List (Except ε β)) :
    chunks.foldl (fun fixPromises batch => fixPromises ++ batch.map attempt) acc
      = acc ++ (chunks.map (fun batch => batch.map attempt)).flatten := by
  induction chunks generalizing acc with
  | nil => simp
  | cons b t ih => simp [ih, List.append_assoc]

/-- Every attempt's settled result appears, in input order. -/
theorem applyFixes_eq_map (attempt : α → Except ε β) (l : List α) (k : Nat)
    (hk : 1 ≤ k) : applyFixes attempt l k = l.map attempt := by
  rw [applyFixes, applyFixes_foldl, List.nil_append, ← List.map_flatten,
    chunkArray_join k hk l]

/-- C9: eligible resources are partitioned into consecutive batches of the
configured concurrency limit with only the last batch smaller — five
resources at limit 2 give exactly the three batches `[2, 2, 1]` — the
concatenation of the batches is the input list in order, and the batch
loop settles every attempt of a batch (fulfilled or rejected) and appends
its result block before the next batch contributes anything. -/
theorem batching_partition (attempt : α → Except ε β) (a b c d e : α)
    (l : List α) (k : Nat) (hk : 1 ≤ k) :
    chunkArray [a, b, c, d, e] 2 = [[a, b], [c, d], [e]] ∧
    (chunkArray [a, b, c, d, e] 2).map List.length = [2, 2, 1] ∧
    (chunkArray l k).flatten = l ∧
    applyFixes attempt l k = l.map attempt := by
  have hc : chunkArray [a, b, c, d, e] 2 = [[a, b], [c, d], [e]] := by
    rw [chunkArray]
    norm_num
    rw [chunkArray]
    norm_num
    rw [chunkArray]
    norm_num
    rw [chunkArray]
    norm_num
  exact ⟨hc, by rw [hc]; rfl, chunkArray_join k hk l, applyFixes_eq_map attempt l k hk⟩

/-- Witness for C9 at concrete inputs. -/
theorem batching_partition_witness :
    chunkArray [1, 2, 3, 4, 5] 2 = [[1, 2], [3, 4], [5]] ∧
    applyFixes (fun n => (Except.ok n : Except Unit Nat)) [1, 2, 3] 2
      = [Except.ok 1, Except.ok 2, Except.ok 3] := by
  have h := batching_partition (fun n => (Except.ok n : Except Unit Nat))
    1 2 3 4 5 [1, 2, 3] 2 (by decide)
  exact ⟨h.1, by rw [h.2.2.2]; rfl⟩

/-- A successful Lambda MCP call applies its effect and advances the call
counter. -/
theorem callLambdaMCP_ok {α : Type} (oracle : Oracle) (operation : String)
    (eff : FnState → FnState × α) (c c' : Ctx) (a : α)
    (h : callLambdaMCP oracle operation eff c = (.ok a, c')) :
    c'.st = (eff c.st).1 ∧ a = (eff c.st).2 := by
  unfold callLambdaMCP at h
  split at h
  · simp only [Prod.mk.injEq, Except.ok.injEq] at h
    obtain ⟨ha, hc⟩ := h
    subst hc
    exact ⟨rfl, ha.symm⟩
  · simp at h

/-- A failed Lambda MCP call leaves the state untouched. -/
theorem callLambdaMCP_err {α : Type} (oracle : Oracle) (operation : String)
    (eff : FnState → FnState × α) (c c' : Ctx) (e : String)
    (h : callLambdaMCP oracle operation eff c = (.error e, c')) :
    c'.st = c.st := by
  unfold callLambdaMCP at h
  split at h
  · simp at h
  · simp only [Prod.mk.injEq, Except.error.injEq] at h
    obtain ⟨he, hc⟩ := h
    subst hc
    rfl

/-- A successful snapshot leaves the state untouched and captures the
pre-attempt `PROD` alias target. -/
theorem getCurrentFunctionState_ok (oracle : Oracle) (c c' : Ctx)
    (snap : Snapshot)
    (h : getCurrentFunctionState oracle c = (.ok snap, c')) :
    c'.st = c.st ∧ snap.currentVersion = c.st.prodAlias := by
  unfold getCurrentFunctionState at h
  split at h
  · simp_all
  · next heq1 =>
    split at h
    · simp_all
    · next heq2 =>
      obtain ⟨h1, _⟩ := callLambdaMCP_ok _ _ _ _ _ _ heq1
      obtain ⟨h2, h3⟩ := callLambdaMCP_ok _ _ _ _ _ _ heq2
      simp only [Prod.mk.injEq] at h
      obtain ⟨hsnap, hc⟩ := h
      cases hsnap
      subst hc
      refine ⟨by rw [h2, h1], ?_⟩
      simp [h3, h2, h1]

/-- A successful `getFunction` is a pure read. -/
theorem getFunction_ok (oracle : Oracle) (c c' : Ctx) (cfg : FnConfig)
    (h : getFunction oracle c = (.ok cfg, c')) : c'.st = c.st :=
  (callLambdaMCP_ok _ _ _ _ _ _ h).1

/-- A successful timeout-configuration update only sets `timeout`. -/
theorem updateConfigTimeout_ok (oracle : Oracle) (t : Nat) (c c' : Ctx)
    (u : Unit) (h : updateConfigTimeout oracle t c = (.ok u, c')) :
    c'.st = { c.st with timeout := t } :=
  (callLambdaMCP_ok _ _ _ _ _ _ h).1

/-- A successful memory-configuration update only sets `memorySize`. -/
theorem updateConfigMemory_ok (oracle : Oracle) (m : Nat) (c c' : Ctx)
    (u : Unit) (h : updateConfigMemory oracle m c = (.ok u, c')) :
    c'.st = { c.st with memorySize := m } :=
  (callLambdaMCP_ok _ _ _ _ _ _ h).1

/-- A successful code upload only bumps `codeRev`. -/
theorem updateFunctionCode_ok (oracle : Oracle) (c c' : Ctx) (u : Unit)
    (h : updateFunctionCode oracle c = (.ok u, c')) :
    c'.st = { c.st with codeRev := c.st.codeRev + 1 } :=
  (callLambdaMCP_ok _ _ _ _ _ _ h).1

/-- A successful publish creates version `latestVersion + 1` and returns
it. -/
theorem publishVersion_ok (oracle : Oracle) (c c' : Ctx) (v : Nat)
    (h : publishVersion oracle c = (.ok v, c')) :
    c'.st = { c.st with latestVersion := c.st.latestVersion + 1 } ∧
    v = c.st.latestVersion + 1 :=
  callLambdaMCP_ok _ _ _ _ _ _ h

/-- A successful alias update only sets `prodAlias`. -/
theorem updateAlias_ok (oracle : Oracle) (v : Nat) (c c' : Ctx) (u : Unit)
    (h : updateAlias oracle v c = (.ok u, c')) :
    c'.st = { c.st with prodAlias := v } :=
  (callLambdaMCP_ok _ _ _ _ _ _ h).1

/-- A completed `updateFunctionTimeout` has published exactly one new
version, pointed the `PROD` alias at it, and reports that version. -/
theorem updateFunctionTimeout_ok (oracle : Oracle) (t : Nat) (c c' : Ctx)
    (fr : FixExec)
    (h : updateFunctionTimeout oracle t c = (.ok fr, c')) :
    c'.st.prodAlias = c.st.latestVersion + 1 ∧
    fr.version = c.st.latestVersion + 1 := by
  unfold updateFunctionTimeout at h
  split at h
  · simp at h
  · next heq1 =>
    split at h
    · simp at h
    · next heq2 =>
      split at h
      · simp at h
      · next heq3 =>
        have h1 := updateConfigTimeout_ok _ _ _ _ _ heq1
        obtain ⟨h2, hv⟩ := publishVersion_ok _ _ _ _ heq2
        have h3 := updateAlias_ok _ _ _ _ _ heq3
        simp only [Prod.mk.injEq, Except.ok.injEq] at h
        obtain ⟨hfr, hc⟩ := h
        subst hc
        subst hfr
        simp [h3, h2, h1, hv]

/-- A completed `updateFunctionMemory` has published exactly one new
version, pointed the `PROD` alias at it, and reports that version. -/
theorem updateFunctionMemory_ok (oracle : Oracle) (m : Nat) (c c' : Ctx)
    (fr : FixExec)
    (h : updateFunctionMemory oracle m c = (.ok fr, c')) :
    c'.st.prodAlias = c.st.latestVersion + 1 ∧
    fr.version = c.st.latestVersion + 1 := by
  unfold updateFunctionMemory at h
  split at h
  · simp at h
  · next heq1 =>
    split at h
    · simp at h
    · next heq2 =>
      split at h
      · simp at h
      · next heq3 =>
        have h1 := updateConfigMemory_ok _ _ _ _ _ heq1
        obtain ⟨h2, hv⟩ := publishVersion_ok _ _ _ _ heq2
        have h3 := updateAlias_ok _ _ _ _ _ heq3
        simp only [Prod.mk.injEq, Except.ok.injEq] at h
        obtain ⟨hfr, hc⟩ := h
        subst hc
        subst hfr
        simp [h3, h2, h1, hv]

/-- A completed code-change flow has published exactly one new version,
pointed the `PROD` alias at it, and reports that version. -/
theorem codeFixFlow_ok (oracle : Oracle) (sol : Solution) (c c' : Ctx)
    (fr : FixExec)
    (h : codeFixFlow oracle sol c = (.ok fr, c')) :
    c'.st.prodAlias = c.st.latestVersion + 1 ∧
    fr.version = c.st.latestVersion + 1 := by
  unfold codeFixFlow at h
  split at h
  · simp at h
  · next heq0 =>
    split at h
    · simp at h
    · next heq1 =>
      split at h
      · simp at h
      · next heq2 =>
        split at h
        · simp at h
        · next heq3 =>
          have h0 := getFunction_ok _ _ _ _ heq0
          have h1 := updateFunctionCode_ok _ _ _ _ heq1
          obtain ⟨h2, hv⟩ := publishVersion_ok _ _ _ _ heq2
          have h3 := updateAlias_ok _ _ _ _ _ heq3
          simp only [Prod.mk.injEq, Except.ok.injEq] at h
          obtain ⟨hfr, hc⟩ := h
          subst hc
          subst hfr
          simp [h3, h2, h1, h0, hv]

/-- A completed `executeFix` of either action kind has published exactly
one new version, pointed the `PROD` alias at it, and reports that version
in its result. -/
theorem executeFix_ok (oracle : Oracle) (sol : Solution) (c c' : Ctx)
    (fr : FixExec)
    (h : executeFix oracle sol c = (.ok fr, c')) :
    c'.st.prodAlias = c.st.latestVersion + 1 ∧
    fr.version = c.st.latestVersion + 1 := by
  cases sol with
  | updateTimeout t => exact updateFunctionTimeout_ok _ _ _ _ _ h
  | updateMemory m => exact updateFunctionMemory_ok _ _ _ _ _ h
  | updateDependencies pkgs => exact codeFixFlow_ok _ _ _ _ _ h
  | fixSyntaxIssues locs => exact codeFixFlow_ok _ _ _ _ _ h
  | addErrorHandling areas => exact codeFixFlow_ok _ _ _ _ _ h

/-- Verification only reads: its final state is its input state. -/
theorem verifyFix_st (oracle : Oracle) (fr : FixExec) (c : Ctx) :
    (verifyFix oracle fr c).2.st = c.st := by
  unfold verifyFix
  split
  · next heq => exact callLambdaMCP_err _ _ _ _ _ _ heq
  · next heq1 =>
    split
    · next heq2 =>
      have h1 := callLambdaMCP_ok _ _ _ _ _ _ heq1
      have h2 := callLambdaMCP_err _ _ _ _ _ _ heq2
      simp_all
    · next heq2 =>
      have h1 := callLambdaMCP_ok _ _ _ _ _ _ heq1
      have h2 := callLambdaMCP_ok _ _ _ _ _ _ heq2
      simp_all

/-- A successful rollback points the `PROD` alias back at the snapshot. -/
theorem rollbackFix_ok (oracle : Oracle) (snap : Snapshot) (c c' : Ctx)
    (u : Unit) (h : rollbackFix oracle snap c = (.ok u, c')) :
    c'.st.prodAlias = snap.currentVersion := by
  unfold rollbackFix updateAlias at h
  obtain ⟨h1, _⟩ := callLambdaMCP_ok _ _ _ _ _ _ h
  simp [h1]

/-- C2: for every oracle, action kind and initial state, an attempt that
terminates `committed` leaves the live `PROD` alias on the newly published
revision (and reports it), and an attempt that terminates `rolledBack`
leaves the alias on the pre-attempt revision captured in the snapshot. -/
theorem applyFix_alias_correct (oracle : Oracle) (sol : Solution) (s0 : FnState) :
    ((applyFix oracle sol s0).2.1 = .committed →
      (applyFix oracle sol s0).2.2.prodAlias = s0.latestVersion + 1 ∧
      (applyFix oracle sol s0).1.version = some (s0.latestVersion + 1)) ∧
    ((applyFix oracle sol s0).2.1 = .rolledBack →
      (applyFix oracle sol s0).2.2.prodAlias = s0.prodAlias) := by
  unfold applyFix
  split
  · constructor <;> intro hco <;> simp at hco
  · next snap c1 heq1 =>
    obtain ⟨hst1, hsnap⟩ := getCurrentFunctionState_ok _ _ _ _ heq1
    split
    · next e c2 heq2 =>
      split
      · next u c3 heq3 =>
        have hr := rollbackFix_ok _ _ _ _ _ heq3
        constructor
        · intro hco; simp at hco
        · intro _
          simp only []
          rw [hr, hsnap]
      · next e2 c3 heq3 =>
        constructor <;> intro hco <;> simp at hco
    · next fr c2 heq2 =>
      obtain ⟨hal, hver⟩ := executeFix_ok _ _ _ _ _ heq2
      have hvst : (verifyFix oracle fr c2).2.st = c2.st := verifyFix_st oracle fr c2
      split
      · constructor
        · intro _
          constructor
          · simp only []
            rw [hvst, hal, hst1]
          · simp only []
            rw [hver, hst1]
        · intro hco; simp at hco
      · split
        · next u c4 heq4 =>
          have hr := rollbackFix_ok _ _ _ _ _ heq4
          constructor
          · intro hco; simp at hco
          · intro _
            simp only []
            rw [hr, hsnap]
        · next e4 c4 heq4 =>
          split
          · next u c5 heq5 =>
            have hr := rollbackFix_ok _ _ _ _ _ heq5
            constructor
            · intro hco; simp at hco
            · intro _
              simp only []
              rw [hr, hsnap]
          · next e5 c5 heq5 =>
            constructor <;> intro hco <;> simp at hco

/-- Witness for C2: a committed configuration-change attempt lands the
alias on the new version 8, and a rolled-back code-change attempt restores
the pre-attempt version 3, at concrete oracles. -/
theorem applyFix_alias_correct_witness :
    (applyFix (fun _ => true) (.updateTimeout 300)
      ⟨30, 128, 0, 7, 3⟩).2.2.prodAlias = 8 ∧
    (applyFix (fun _ => true) (.updateTimeout 300)
      ⟨30, 128, 0, 7, 3⟩).1.version = some 8 ∧
    (applyFix (fun i => !(i == 5)) (.fixSyntaxIssues 2)
      ⟨30, 128, 0, 7, 3⟩).2.2.prodAlias = 3 := by
  refine ⟨?_, ?_, ?_⟩
  · exact ((applyFix_alias_correct (fun _ => true) (.updateTimeout 300)
      ⟨30, 128, 0, 7, 3⟩).1 (by decide)).1
  · exact ((applyFix_alias_correct (fun _ => true) (.updateTimeout 300)
      ⟨30, 128, 0, 7, 3⟩).1 (by decide)).2
  · exact (applyFix_alias_correct (fun i => !(i == 5)) (.fixSyntaxIssues 2)
      ⟨30, 128, 0, 7, 3⟩).2 (by decide)

/-- C1 counterexample: verification fails (the verification read throws)
and both compensating rollback calls fail, so the alias is left on the new
version 8 and the physical outcome is `failed` — yet the reported result
still carries `rolledBack: true`, indistinguishable in its flags from a
successful rollback; only the error string carries the rollback failure. -/
theorem rollback_failure_counterexample :
    (applyFix (fun i => decide (i < 5)) (.updateTimeout 300)
      ⟨30, 128, 0, 7, 3⟩).1.rolledBack = true ∧
    (applyFix (fun i => decide (i < 5)) (.updateTimeout 300)
      ⟨30, 128, 0, 7, 3⟩).1.success = false ∧
    (applyFix (fun i => decide (i < 5)) (.updateTimeout 300)
      ⟨30, 128, 0, 7, 3⟩).2.1 = .failed ∧
    (applyFix (fun i => decide (i < 5)) (.updateTimeout 300)
      ⟨30, 128, 0, 7, 3⟩).2.2.prodAlias = 8 ∧
    (applyFix (fun i => decide (i < 5)) (.updateTimeout 300)
      ⟨30, 128, 0, 7, 3⟩).2.2.prodAlias ≠ 3 ∧
    (applyFix (fun i => decide (i < 5)) (.updateTimeout 300)
      ⟨30, 128, 0, 7, 3⟩).1.error = some "Lambda MCP updateAlias failed" := by
  decide

/-- C1 amended: every attempt that does not commit — whether its rollback
succeeded (`rolledBack`) or failed or never ran (`failed`) — reports the
same flags `success: false, rolledBack: true`; a failed rollback is
surfaced only through the error message, not as a distinct outcome. -/
theorem failed_rollback_reported_as_rolledBack (oracle : Oracle)
    (sol : Solution) (s0 : FnState) :
    ((applyFix oracle sol s0).2.1 = .failed →
      (applyFix oracle sol s0).1.success = false ∧
      (applyFix oracle sol s0).1.rolledBack = true) ∧
    ((applyFix oracle sol s0).2.1 = .rolledBack →
      (applyFix oracle sol s0).1.success = false ∧
      (applyFix oracle sol s0).1.rolledBack = true) := by
  unfold applyFix
  repeat' split
  all_goals simp

/-- Witness for the amended C1 theorem at the concrete failing oracle. -/
theorem failed_rollback_reported_witness :
    (applyFix (fun i => decide (i < 5)) (.updateTimeout 300)
      ⟨30, 128, 0, 7, 3⟩).1.success = false ∧
    (applyFix (fun i => decide (i < 5)) (.updateTimeout 300)
      ⟨30, 128, 0, 7, 3⟩).1.rolledBack = true :=
  (failed_rollback_reported_as_rolledBack (fun i => decide (i < 5))
    (.updateTimeout 300) ⟨30, 128, 0, 7, 3⟩).1 (by decide)
